import Mathlib

/-!
Shallow embedding of `scripts/check_readme_syntax.py`.

The script loads one text document, splits it into lines, and runs three
passes: a fence-balance pass (a stack plus a total counter of fence-marker
lines), a raw-text count of escaped-backtick sequences, and an
outside-of-fence inline-backtick count.  It then builds the error list and
prints/exits.

A document is modelled as `List (List Char)` — the sequence of lines, each a
list of characters (without newline characters).  The raw text the script
counts escapes in is the lines joined by a newline character.  Python's
`str.lstrip()` / `str.split()` whitespace classes are modelled with
`Char.isWhitespace`; every character occurring in the claims is ASCII, where
the two classes agree.
-/

/-- Backtick character, the inline marker. -/
def bq : Char := Char.ofNat 96

/-- Backslash character, the escape character. -/
def bs : Char := Char.ofNat 92

/-- Newline character, joining lines in the raw text. -/
def nl : Char := Char.ofNat 10

/-- The triple-backtick fence marker token prefix. -/
def trip : List Char := [bq, bq, bq]

/-- Python `line.lstrip()`: drop leading whitespace. -/
def stripL (line : List Char) : List Char := line.dropWhile Char.isWhitespace

/-- Python `line.lstrip().startswith('` ``')` as a Bool (the triple is three backticks). -/
def isFenceLine (line : List Char) : Bool := decide ((stripL line).take 3 = trip)

/-- Python `s.split()[0]` for a stripped fence line: the first
whitespace-separated field.  On a line that starts with a backtick the leading
`dropWhile` is a no-op, so this is the maximal non-whitespace prefix. -/
def fenceToken (line : List Char) : List Char :=
  (stripL line).takeWhile (fun c => !c.isWhitespace)

/-- Python `s.split()[0]` in general: `None` when `s.split()` is empty (all
whitespace), otherwise the first whitespace-separated field.  Used by the
fallible variants of the passes to model the possible `IndexError`. -/
def splitHead (s : List Char) : Option (List Char) :=
  if s.dropWhile Char.isWhitespace = [] then none
  else some ((s.dropWhile Char.isWhitespace).takeWhile (fun c => !c.isWhitespace))

/-- Python lines 12–15: `if not fence_stack or fence_stack[-1] != fence:
append else pop`.  The stack's top is the head of the list. -/
def fenceStackStep (stack : List (List Char)) (f : List Char) : List (List Char) :=
  match stack with
  | [] => [f]
  | t :: rest => if t = f then rest else f :: t :: rest

/-- One iteration of the fence-balance loop (Python lines 8–16): state is
(fence_stack, fence_count). -/
def fenceStep (st : List (List Char) × Nat) (line : List Char) :
    List (List Char) × Nat :=
  if (stripL line).take 3 = trip then
    (fenceStackStep st.1 (fenceToken line), st.2 + 1)
  else st

/-- The fence-balance loop over the remaining lines. -/
def fenceLoop : List (List Char) → List (List Char) × Nat → List (List Char) × Nat
  | [], st => st
  | l :: ls, st => fenceLoop ls (fenceStep st l)

/-- Python `fence_count` after the first loop. -/
def fenceCount (lines : List (List Char)) : Nat := (fenceLoop lines ([], 0)).2

/-- Python `fence_stack` after the first loop. -/
def fenceStackFinal (lines : List (List Char)) : List (List Char) :=
  (fenceLoop lines ([], 0)).1

/-- Count of non-overlapping occurrences of the two-character sequence
backslash-backtick, Python `text.count('\\`')` (the pattern's two characters
differ, so overlapping occurrences are impossible anyway). -/
def countEsc : List Char → Nat
  | [] => 0
  | [_] => 0
  | a :: b :: rest =>
    if a = bs ∧ b = bq then countEsc rest + 1 else countEsc (b :: rest)

/-- The raw document text: the lines joined by newline. -/
def rawText (lines : List (List Char)) : List Char := List.intercalate [nl] lines

/-- Python line 18: `escaped = text.count('\\`')`. -/
def escapedOf (lines : List (List Char)) : Nat := countEsc (rawText lines)

/-- One iteration of the inline-balance loop (Python lines 23–34): state is
(in_fence, outside_backticks).  The variable `fence_curr` of the script is
write-only (assigned, never read), so it is omitted here; the fallible
variant `inlineStepO` below carries it.  Note the count uses the original
line, not the stripped one, exactly as `line.count('`')` does. -/
def inlineStep (st : Bool × Nat) (line : List Char) : Bool × Nat :=
  if (stripL line).take 3 = trip then (!st.1, st.2)
  else if st.1 then st
  else (st.1, st.2 + line.count bq)

/-- The inline-balance loop over the remaining lines. -/
def inlineLoop : List (List Char) → Bool × Nat → Bool × Nat
  | [], st => st
  | l :: ls, st => inlineLoop ls (inlineStep st l)

/-- Python `outside_backticks` after the second loop. -/
def outsideBackticks (lines : List (List Char)) : Nat :=
  (inlineLoop lines (false, 0)).2

/-- Message of Python line 38 (f-string prefix). -/
def fencePre : String := "Unbalanced fenced code blocks (found "

/-- Message of Python line 38. -/
def fenceMsg (n : Nat) : String := fencePre ++ toString n ++ " fence markers)"

/-- Message of Python line 40 (f-string prefix). -/
def escPre : String := "Found "

/-- Message of Python line 40. -/
def escMsg (n : Nat) : String :=
  escPre ++ toString n ++ " escaped backtick sequences (\\`) — consider removing backslashes"

/-- Message of Python line 42 (f-string prefix). -/
def inlinePre : String := "Unbalanced inline backticks outside code fences (found "

/-- Message of Python line 42. -/
def inlineMsg (n : Nat) : String := inlinePre ++ toString n ++ " backticks)"

/-- Python lines 36–42: the error list built from the three counts, in the
fixed order fence, escape, inline. -/
def errsOfCounts (fc e ob : Nat) : List String :=
  (if fc % 2 ≠ 0 then [fenceMsg fc] else [])
    ++ (if 0 < e then [escMsg e] else [])
    ++ (if ob % 2 ≠ 0 then [inlineMsg ob] else [])

/-- The error list of the whole scan. -/
def errsOf (lines : List (List Char)) : List String :=
  errsOfCounts (fenceCount lines) (escapedOf lines) (outsideBackticks lines)

/-- The scan verdict: `passed` (the issue list is empty) together with the
issue list. -/
def scan (lines : List (List Char)) : Bool × List String :=
  ((errsOf lines).isEmpty, errsOf lines)

/-- Python line 49's success message. -/
def okMsg : String :=
  "OK: README.md syntax looks good (fenced blocks and inline backticks balanced)"

/-- Python lines 44–49, the output boundary: the printed lines and the exit
status.  `print('-', e)` prints a dash, a space, and the issue. -/
def output (lines : List (List Char)) : List String × Nat :=
  if errsOf lines = [] then ([okMsg], 0)
  else ("SYNTAX-ISSUES" :: (errsOf lines).map (fun e => "- " ++ e), 2)

/-!
Fallible variants of the two loops.  The script indexes `s.split()[0]`
(lines 11 and 28), which raises `IndexError` when `s.split()` is empty; the
variants below return `none` in exactly that situation, so totality of the
scan is the statement that they always return `some`.
-/

/-- Fallible variant of `fenceStep`, using `splitHead` for `s.split()[0]`. -/
def fenceStepO (st : List (List Char) × Nat) (line : List Char) :
    Option (List (List Char) × Nat) :=
  if (stripL line).take 3 = trip then
    (splitHead (stripL line)).map (fun f => (fenceStackStep st.1 f, st.2 + 1))
  else some st

/-- Fallible variant of `fenceLoop`. -/
def fenceLoopO : List (List Char) → List (List Char) × Nat →
    Option (List (List Char) × Nat)
  | [], st => some st
  | l :: ls, st => (fenceStepO st l).bind (fun st2 => fenceLoopO ls st2)

/-- Fallible variant of `inlineStep`, carrying the script's `fence_curr`
variable (state is (in_fence, fence_curr, outside_backticks)); entering a
fence evaluates `s.split()[0]` (Python line 28). -/
def inlineStepO (st : Bool × Option (List Char) × Nat) (line : List Char) :
    Option (Bool × Option (List Char) × Nat) :=
  if (stripL line).take 3 = trip then
    if st.1 then some (false, none, st.2.2)
    else (splitHead (stripL line)).map (fun f => (true, some f, st.2.2))
  else if st.1 then some st
  else some (st.1, st.2.1, st.2.2 + line.count bq)

/-- Fallible variant of `inlineLoop`. -/
def inlineLoopO : List (List Char) → Bool × Option (List Char) × Nat →
    Option (Bool × Option (List Char) × Nat)
  | [], st => some st
  | l :: ls, st => (inlineStepO st l).bind (fun st2 => inlineLoopO ls st2)

/-- The whole scan with the fallible loops: `none` would mean an uncaught
`IndexError` inside a pass. -/
def scanO (lines : List (List Char)) : Option (Bool × List String) :=
  (fenceLoopO lines ([], 0)).bind (fun fst =>
    (inlineLoopO lines (false, none, 0)).map (fun ist =>
      ((errsOfCounts fst.2 (escapedOf lines) ist.2.2).isEmpty,
        errsOfCounts fst.2 (escapedOf lines) ist.2.2)))

/-! Concrete example documents used by the claims and witnesses. -/

/-- A fence-marker line with an attached language tag. -/
def pyFenceLine : List Char := "```python".data

/-- A bare fence-marker line. -/
def bareFenceLine : List Char := "```".data

/-- A line whose entire content is an escaped backtick. -/
def escBqLine : List Char := "\\`".data

/-- Document exhibiting all three issues at once: an escaped backtick (which
is also an unbalanced inline backtick outside any fence) followed by a lone
fence line. -/
def allThreeDoc : List (List Char) := [escBqLine, bareFenceLine]

/-- Document with exactly two escaped backticks and nothing else wrong. -/
def escTwiceDoc : List (List Char) := ["a \\`b\\` c".data]

/-- Document whose two escaped backticks sit inside a fenced region. -/
def escInFenceDoc : List (List Char) := [bareFenceLine, "\\` \\`".data, bareFenceLine]

/-- Document with a single unbalanced inline backtick and no fences. -/
def brokenInlineDoc : List (List Char) := ["this is `broken".data]

/-- Document with balanced inline backticks, no fences, no escapes. -/
def cleanDoc : List (List Char) := ["hello `a` world".data]

/-- A line holding a single backtick. -/
def oneBqLine : List Char := "`".data

/-! Helper lemmas. -/

/-- Data of an appended string is the appended data. -/
theorem dataAppendStr (s t : String) : (s ++ t).data = s.data ++ t.data := rfl

/-- Taking at most the fixed prefix of a message ignores the count rendered in
its middle. -/
theorem msg_take_eq (pre mid suf : String) (n : Nat) (h : n ≤ pre.data.length) :
    (pre ++ mid ++ suf).data.take n = pre.data.take n := by
  have h2 : (pre ++ mid ++ suf).data = pre.data ++ (mid.data ++ suf.data) := by
    rw [dataAppendStr, dataAppendStr, List.append_assoc]
  rw [h2, List.take_append_of_le_length h]

/-- The fence message never coincides with the escape message. -/
theorem fenceMsg_ne_escMsg (a b : Nat) : fenceMsg a ≠ escMsg b := by
  intro h
  have h6 : (fenceMsg a).data.take 6 = (escMsg b).data.take 6 := by rw [h]
  simp only [fenceMsg, escMsg] at h6
  rw [msg_take_eq fencePre _ _ 6 (by decide),
    msg_take_eq escPre _ _ 6 (by decide)] at h6
  exact absurd h6 (by decide)

/-- The fence message never coincides with the inline message. -/
theorem fenceMsg_ne_inlineMsg (a b : Nat) : fenceMsg a ≠ inlineMsg b := by
  intro h
  have h12 : (fenceMsg a).data.take 12 = (inlineMsg b).data.take 12 := by rw [h]
  simp only [fenceMsg, inlineMsg] at h12
  rw [msg_take_eq fencePre _ _ 12 (by decide),
    msg_take_eq inlinePre _ _ 12 (by decide)] at h12
  exact absurd h12 (by decide)

/-- The escape message never coincides with the inline message. -/
theorem escMsg_ne_inlineMsg (a b : Nat) : escMsg a ≠ inlineMsg b := by
  intro h
  have h6 : (escMsg a).data.take 6 = (inlineMsg b).data.take 6 := by rw [h]
  simp only [escMsg, inlineMsg] at h6
  rw [msg_take_eq escPre _ _ 6 (by decide),
    msg_take_eq inlinePre _ _ 6 (by decide)] at h6
  exact absurd h6 (by decide)

/-- On a line that starts with the triple marker, Python's `s.split()[0]` is
defined and equals the maximal non-whitespace prefix. -/
theorem splitHead_of_fence (s : List Char) (h : s.take 3 = trip) :
    splitHead s = some (s.takeWhile (fun c => !c.isWhitespace)) := by
  cases s with
  | nil => exact absurd h (by decide)
  | cons a t =>
    have h2 : a :: t.take 2 = [bq, bq, bq] := h
    have ha : a = bq := by injection h2
    have hw : a.isWhitespace = false := by rw [ha]; decide
    simp [splitHead, List.dropWhile_cons, hw]

/-- The counter component of the fence loop counts exactly the fence-marker
lines, independently of the stack. -/
theorem fenceLoop_count : ∀ (ls : List (List Char)) (stack : List (List Char)) (c : Nat),
    (fenceLoop ls (stack, c)).2 = c + ls.countP isFenceLine := by
  intro ls
  induction ls with
  | nil => intro stack c; simp [fenceLoop]
  | cons l ls ih =>
    intro stack c
    by_cases h : (stripL l).take 3 = trip
    · have hl : isFenceLine l = true := by simp [isFenceLine, h]
      simp only [fenceLoop, fenceStep, if_pos h]
      rw [ih, List.countP_cons_of_pos _ _ hl]
      omega
    · have hl : ¬(isFenceLine l = true) := by simp [isFenceLine, h]
      simp only [fenceLoop, fenceStep, if_neg h]
      rw [ih, List.countP_cons_of_neg _ _ hl]

/-- `fence_count` is the number of fence-marker lines of the document. -/
theorem fenceCount_eq (lines : List (List Char)) :
    fenceCount lines = lines.countP isFenceLine := by
  simpa [fenceCount] using fenceLoop_count lines [] 0

/-- The inline loop splits over list append. -/
theorem inlineLoop_append : ∀ (xs ys : List (List Char)) (st : Bool × Nat),
    inlineLoop (xs ++ ys) st = inlineLoop ys (inlineLoop xs st) := by
  intro xs
  induction xs with
  | nil => intro ys st; rfl
  | cons l ls ih => intro ys st; simp [inlineLoop, ih]

/-- Inside an open fence, non-fence lines contribute nothing to the
outside-fence inline count. -/
theorem inlineLoop_inside : ∀ (xs : List (List Char)) (n : Nat),
    (∀ l ∈ xs, isFenceLine l = false) → inlineLoop xs (true, n) = (true, n) := by
  intro xs
  induction xs with
  | nil => intro n _; rfl
  | cons l ls ih =>
    intro n hall
    have hl : ¬((stripL l).take 3 = trip) := by
      have h0 := hall l (List.mem_cons_self l ls)
      simpa [isFenceLine] using h0
    have hstep : inlineStep (true, n) l = (true, n) := by
      simp [inlineStep, hl]
    rw [show inlineLoop (l :: ls) (true, n) = inlineLoop ls (inlineStep (true, n) l) from rfl,
      hstep]
    exact ih n (fun x hx => hall x (List.mem_cons_of_mem _ hx))

/-- The fallible fence step never fails and agrees with `fenceStep`. -/
theorem fenceStepO_eq (st : List (List Char) × Nat) (line : List Char) :
    fenceStepO st line = some (fenceStep st line) := by
  by_cases h : (stripL line).take 3 = trip
  · simp [fenceStepO, fenceStep, h, splitHead_of_fence _ h, fenceToken]
  · simp [fenceStepO, fenceStep, h]

/-- The fallible fence loop never fails and agrees with `fenceLoop`. -/
theorem fenceLoopO_eq : ∀ (ls : List (List Char)) (st : List (List Char) × Nat),
    fenceLoopO ls st = some (fenceLoop ls st) := by
  intro ls
  induction ls with
  | nil => intro st; rfl
  | cons l ls ih => intro st; simp [fenceLoopO, fenceLoop, fenceStepO_eq, ih]

/-- The fallible inline step never fails and agrees with `inlineStep` on the
flag and the count. -/
theorem inlineStepO_eq (b : Bool) (fc : Option (List Char)) (n : Nat) (line : List Char) :
    ∃ fc2, inlineStepO (b, fc, n) line =
      some ((inlineStep (b, n) line).1, fc2, (inlineStep (b, n) line).2) := by
  by_cases h : (stripL line).take 3 = trip
  · cases b with
    | false =>
      refine ⟨some (fenceToken line), ?_⟩
      simp [inlineStepO, inlineStep, h, splitHead_of_fence _ h, fenceToken]
    | true =>
      refine ⟨none, ?_⟩
      simp [inlineStepO, inlineStep, h]
  · cases b with
    | false => exact ⟨fc, by simp [inlineStepO, inlineStep, h]⟩
    | true => exact ⟨fc, by simp [inlineStepO, inlineStep, h]⟩

/-- The fallible inline loop never fails and agrees with `inlineLoop` on the
flag and the count. -/
theorem inlineLoopO_eq : ∀ (ls : List (List Char)) (b : Bool) (fc : Option (List Char)) (n : Nat),
    ∃ fc2, inlineLoopO ls (b, fc, n) =
      some ((inlineLoop ls (b, n)).1, fc2, (inlineLoop ls (b, n)).2) := by
  intro ls
  induction ls with
  | nil => intro b fc n; exact ⟨fc, rfl⟩
  | cons l ls ih =>
    intro b fc n
    obtain ⟨fc1, h1⟩ := inlineStepO_eq b fc n l
    obtain ⟨fc2, h2⟩ := ih (inlineStep (b, n) l).1 fc1 (inlineStep (b, n) l).2
    refine ⟨fc2, ?_⟩
    rw [show inlineLoopO (l :: ls) (b, fc, n)
        = (inlineStepO (b, fc, n) l).bind (fun st2 => inlineLoopO ls st2) from rfl,
      h1]
    rw [show (some ((inlineStep (b, n) l).1, fc1, (inlineStep (b, n) l).2)).bind
        (fun st2 => inlineLoopO ls st2)
        = inlineLoopO ls ((inlineStep (b, n) l).1, fc1, (inlineStep (b, n) l).2) from rfl,
      h2]
    rfl

/-- Membership of the fence message in the error list is equivalent to odd
parity of the fence count. -/
theorem mem_errs_fence (fc e ob : Nat) :
    fenceMsg fc ∈ errsOfCounts fc e ob ↔ fc % 2 = 1 := by
  constructor
  · intro hmem
    rcases Nat.mod_two_eq_zero_or_one fc with h0 | h1
    · exfalso
      have hc : ¬(fc % 2 ≠ 0) := by omega
      simp only [errsOfCounts, if_neg hc, List.nil_append, List.mem_append] at hmem
      rcases hmem with hm | hm
      · by_cases he : 0 < e
        · rw [if_pos he] at hm
          simp only [List.mem_singleton] at hm
          exact fenceMsg_ne_escMsg fc e hm
        · rw [if_neg he] at hm
          simp at hm
      · by_cases ho : ob % 2 ≠ 0
        · rw [if_pos ho] at hm
          simp only [List.mem_singleton] at hm
          exact fenceMsg_ne_inlineMsg fc ob hm
        · rw [if_neg ho] at hm
          simp at hm
    · exact h1
  · intro h1
    have hc : fc % 2 ≠ 0 := by omega
    simp only [errsOfCounts, if_pos hc]
    exact List.mem_append_left _ (List.mem_append_left _ (List.mem_cons_self _ _))

/-- Membership of the escape message in the error list is equivalent to a
positive escape count. -/
theorem mem_errs_esc (fc e ob : Nat) :
    escMsg e ∈ errsOfCounts fc e ob ↔ 0 < e := by
  constructor
  · intro hmem
    by_cases he : 0 < e
    · exact he
    · exfalso
      simp only [errsOfCounts, if_neg he, List.mem_append] at hmem
      rcases hmem with (hm | hm) | hm
      · by_cases hc : fc % 2 ≠ 0
        · rw [if_pos hc] at hm
          simp only [List.mem_singleton] at hm
          exact fenceMsg_ne_escMsg fc e hm.symm
        · rw [if_neg hc] at hm
          simp at hm
      · simp at hm
      · by_cases ho : ob % 2 ≠ 0
        · rw [if_pos ho] at hm
          simp only [List.mem_singleton] at hm
          exact escMsg_ne_inlineMsg e ob hm
        · rw [if_neg ho] at hm
          simp at hm
  · intro he
    simp [errsOfCounts, if_pos he]

/-- Membership of the inline message in the error list is equivalent to odd
parity of the outside-fence count. -/
theorem mem_errs_inline (fc e ob : Nat) :
    inlineMsg ob ∈ errsOfCounts fc e ob ↔ ob % 2 = 1 := by
  constructor
  · intro hmem
    rcases Nat.mod_two_eq_zero_or_one ob with h0 | h1
    · exfalso
      have ho : ¬(ob % 2 ≠ 0) := by omega
      simp only [errsOfCounts, if_neg ho, List.append_nil, List.mem_append] at hmem
      rcases hmem with hm | hm
      · by_cases hc : fc % 2 ≠ 0
        · rw [if_pos hc] at hm
          simp only [List.mem_singleton] at hm
          exact fenceMsg_ne_inlineMsg fc ob hm.symm
        · rw [if_neg hc] at hm
          simp at hm
      · by_cases he : 0 < e
        · rw [if_pos he] at hm
          simp only [List.mem_singleton] at hm
          exact escMsg_ne_inlineMsg e ob hm.symm
        · rw [if_neg he] at hm
          simp at hm
    · exact h1
  · intro h1
    have ho : ob % 2 ≠ 0 := by omega
    simp only [errsOfCounts, if_pos ho]
    exact List.mem_append_right _ (List.mem_cons_self _ _)

/-! Claim theorems. -/

/-- Claim C1: a document with an even number of fence-marker lines, no
escaped-backtick sequence in its raw text, and an even outside-fence inline
backtick count passes: `scan` returns `(true, [])`, and at the output
boundary the confirmation message is printed and the exit status is 0. -/
theorem clean_doc_passes (lines : List (List Char))
    (h1 : lines.countP isFenceLine % 2 = 0)
    (h2 : escapedOf lines = 0)
    (h3 : outsideBackticks lines % 2 = 0) :
    scan lines = (true, []) ∧ output lines = ([okMsg], 0) := by
  have hfc : fenceCount lines % 2 = 0 := by rw [fenceCount_eq]; exact h1
  have herr : errsOf lines = [] := by
    simp [errsOf, errsOfCounts, hfc, h2, h3]
  exact ⟨by simp [scan, herr], by simp [output, herr]⟩

/-- Claim C1 witness: a concrete clean document. -/
theorem clean_doc_passes_witness :
    scan cleanDoc = (true, []) ∧ output cleanDoc = ([okMsg], 0) :=
  clean_doc_passes cleanDoc (by decide) (by decide) (by decide)

/-- Claim C2: `passed` holds exactly when the issue list is empty, and a
document exhibiting all three issue types yields exactly the three issues in
the fixed order fence, escape, inline — no check suppresses another. -/
theorem exhaustive_reporting :
    (∀ lines : List (List Char), (scan lines).1 = true ↔ (scan lines).2 = [])
    ∧ (∀ lines : List (List Char),
        fenceCount lines % 2 = 1 → 0 < escapedOf lines →
        outsideBackticks lines % 2 = 1 →
        (scan lines).2 = [fenceMsg (fenceCount lines), escMsg (escapedOf lines),
          inlineMsg (outsideBackticks lines)]) := by
  constructor
  · intro lines
    rcases h : errsOf lines with _ | ⟨a, as⟩ <;> simp [scan, h]
  · intro lines h1 h2 h3
    simp [scan, errsOf, errsOfCounts, h1, h2, h3]

/-- Claim C2 witness: a concrete document with all three issues. -/
theorem exhaustive_reporting_witness :
    (scan allThreeDoc).2 = [fenceMsg (fenceCount allThreeDoc),
      escMsg (escapedOf allThreeDoc), inlineMsg (outsideBackticks allThreeDoc)] :=
  exhaustive_reporting.2 allThreeDoc (by decide) (by decide) (by decide)

/-- Claim C3: the fence-imbalance issue is emitted iff the total count of
fence-marker lines is odd, and it names that count; the verdict ignores the
final stack contents — the counter is a pure count of fence-marker lines; the
single-line "```python" document fails with an issue naming fence count 1. -/
theorem fence_issue_iff_odd :
    (∀ lines : List (List Char),
        fenceMsg (fenceCount lines) ∈ (scan lines).2 ↔ fenceCount lines % 2 = 1)
    ∧ (∀ lines : List (List Char), fenceCount lines = lines.countP isFenceLine)
    ∧ scan [pyFenceLine] = (false, [fenceMsg 1]) := by
  refine ⟨fun lines => ?_, fenceCount_eq, by decide⟩
  exact mem_errs_fence (fenceCount lines) (escapedOf lines) (outsideBackticks lines)

/-- Claim C3 witness: the membership equivalence applied to the one-line
"```python" document. -/
theorem fence_issue_iff_odd_witness :
    fenceMsg (fenceCount [pyFenceLine]) ∈ (scan [pyFenceLine]).2 :=
  (fence_issue_iff_odd.1 [pyFenceLine]).mpr (by decide)

/-- Claim C4 counterexample: in the document "```python" then "```", the bare
closing line does not pop the opener's token — it pushes, leaving a
two-element stack (a pop would have left it empty), because the token of
"```python" is the entire field including the attached tag. -/
theorem fence_tag_counterexample :
    fenceLoop [pyFenceLine, bareFenceLine] ([], 0) = ([bareFenceLine, pyFenceLine], 2)
    ∧ fenceStackStep [fenceToken pyFenceLine] (fenceToken bareFenceLine)
      = [bareFenceLine, pyFenceLine]
    ∧ fenceStackFinal [pyFenceLine, bareFenceLine] ≠ [] := by decide

/-- Claim C4 (amended): a fence line's identity for stack matching is the
entire first whitespace-separated field of the stripped line, including an
attached language tag (only a whitespace-separated tag is excluded).  A fence
line pops the stack exactly when its token equals the top token and pushes
otherwise; hence "```python" is popped by a later identical "```python" line,
while a bare "```" would push. -/
theorem fence_token_matching :
    fenceToken pyFenceLine = pyFenceLine
    ∧ fenceToken ("``` python".data) = bareFenceLine
    ∧ (∀ (g f : List Char) (rest : List (List Char)),
        fenceStackStep (g :: rest) f = rest ↔ g = f)
    ∧ fenceLoop [pyFenceLine, pyFenceLine] ([], 0) = ([], 2) := by
  refine ⟨by decide, by decide, fun g f rest => ⟨fun h => ?_, fun h => by
    simp [fenceStackStep, h]⟩, by decide⟩
  by_contra hne
  rw [show fenceStackStep (g :: rest) f
      = if g = f then rest else f :: g :: rest from rfl, if_neg hne] at h
  have hlen := congrArg List.length h
  simp only [List.length_cons] at hlen
  omega

/-- Claim C5: backticks on fence lines and on lines inside an open fenced
region contribute nothing to the outside-fence count: a document made of a
fence opening line, non-fence lines holding an odd number of backticks in
total, and a matching closing fence line, with no escaped sequence, passes. -/
theorem fenced_markers_ignored (openL closeL : List Char) (mid : List (List Char))
    (ho : isFenceLine openL = true) (hc : isFenceLine closeL = true)
    (hm : ∀ l ∈ mid, isFenceLine l = false)
    (htok : fenceToken closeL = fenceToken openL)
    (hesc : escapedOf (openL :: (mid ++ [closeL])) = 0)
    (hodd : (mid.map (fun l => l.count bq)).sum % 2 = 1) :
    scan (openL :: (mid ++ [closeL])) = (true, []) := by
  have ho' : (stripL openL).take 3 = trip := of_decide_eq_true ho
  have hc' : (stripL closeL).take 3 = trip := of_decide_eq_true hc
  have hout : outsideBackticks (openL :: (mid ++ [closeL])) = 0 := by
    rw [show outsideBackticks (openL :: (mid ++ [closeL]))
        = (inlineLoop (mid ++ [closeL]) (inlineStep (false, 0) openL)).2 from rfl]
    have hstep : inlineStep (false, 0) openL = (true, 0) := by
      simp [inlineStep, ho']
    rw [hstep, inlineLoop_append, inlineLoop_inside mid 0 hm]
    simp [inlineLoop, inlineStep, hc']
  have hmid : mid.countP isFenceLine = 0 :=
    List.countP_eq_zero.mpr (fun a ha => by simp [hm a ha])
  have hone : List.countP isFenceLine [closeL] = 1 := by
    rw [List.countP_cons_of_pos _ _ hc]
    rfl
  have hfc : fenceCount (openL :: (mid ++ [closeL])) = 2 := by
    rw [fenceCount_eq, List.countP_cons_of_pos _ _ ho, List.countP_append, hmid, hone]
  have herr : errsOf (openL :: (mid ++ [closeL])) = [] := by
    simp [errsOf, errsOfCounts, hfc, hesc, hout]
  simp [scan, herr]

/-- Claim C5 witness: a fenced block containing a single backtick. -/
theorem fenced_markers_ignored_witness :
    scan (bareFenceLine :: ([oneBqLine] ++ [bareFenceLine])) = (true, []) :=
  fenced_markers_ignored bareFenceLine bareFenceLine [oneBqLine]
    (by decide) (by decide) (by decide) (by decide) (by decide) (by decide)

/-- Claim C6: the escaped-sequence issue is emitted iff the raw-text count of
backslash-backtick occurrences is positive and it names that count;
occurrences inside fenced regions are included, and the detection is
independent of fence and inline balance (the equivalence constrains only the
escape count). -/
theorem esc_issue_iff_pos :
    (∀ lines : List (List Char),
        escMsg (escapedOf lines) ∈ (scan lines).2 ↔ 0 < escapedOf lines)
    ∧ scan escTwiceDoc = (false, [escMsg 2])
    ∧ scan escInFenceDoc = (false, [escMsg 2]) :=
  ⟨fun lines => mem_errs_esc (fenceCount lines) (escapedOf lines) (outsideBackticks lines),
    by decide, by decide⟩

/-- Claim C6 witness: the membership equivalence applied to the document with
two escaped backticks. -/
theorem esc_issue_iff_pos_witness :
    escMsg (escapedOf escTwiceDoc) ∈ (scan escTwiceDoc).2 :=
  (esc_issue_iff_pos.1 escTwiceDoc).mpr (by decide)

/-- Claim C7: the inline-imbalance issue is emitted iff the outside-fence
inline backtick count is odd and it names that count; the fence-free one-line
document with a single backtick fails citing the odd count 1. -/
theorem inline_issue_iff_odd :
    (∀ lines : List (List Char),
        inlineMsg (outsideBackticks lines) ∈ (scan lines).2
          ↔ outsideBackticks lines % 2 = 1)
    ∧ scan brokenInlineDoc = (false, [inlineMsg 1]) :=
  ⟨fun lines => mem_errs_inline (fenceCount lines) (escapedOf lines) (outsideBackticks lines),
    by decide⟩

/-- Claim C7 witness: the membership equivalence applied to the one-backtick
document. -/
theorem inline_issue_iff_odd_witness :
    inlineMsg (outsideBackticks brokenInlineDoc) ∈ (scan brokenInlineDoc).2 :=
  (inline_issue_iff_odd.1 brokenInlineDoc).mpr (by decide)

/-- Claim C8: at the output boundary, a non-empty issue list prints the
"SYNTAX-ISSUES" header followed by one line per issue in order and exits with
status 2; an empty issue list prints the confirmation message and exits with
status 0. -/
theorem output_boundary :
    (∀ lines : List (List Char), (scan lines).2 ≠ [] →
        output lines
          = ("SYNTAX-ISSUES" :: (scan lines).2.map (fun e => "- " ++ e), 2))
    ∧ (∀ lines : List (List Char), (scan lines).2 = [] →
        output lines = ([okMsg], 0)) := by
  constructor
  · intro lines h
    have h2 : ¬(errsOf lines = []) := h
    have h3 : output lines
        = ("SYNTAX-ISSUES" :: (errsOf lines).map (fun e => "- " ++ e), 2) := by
      unfold output
      rw [if_neg h2]
    exact h3
  · intro lines h
    have h2 : errsOf lines = [] := h
    unfold output
    rw [if_pos h2]

/-- Claim C8 witness: both branches at concrete documents. -/
theorem output_boundary_witness :
    output brokenInlineDoc
      = ("SYNTAX-ISSUES" :: (scan brokenInlineDoc).2.map (fun e => "- " ++ e), 2)
    ∧ output cleanDoc = ([okMsg], 0) :=
  ⟨output_boundary.1 brokenInlineDoc (by decide),
    output_boundary.2 cleanDoc (by decide)⟩

/-- Claim C9: the scan is total over document content: the fallible variant
of the pipeline, which returns `none` exactly where `s.split()[0]` could
raise, returns `some` of the verdict on every document. -/
theorem scan_total (lines : List (List Char)) : scanO lines = some (scan lines) := by
  obtain ⟨fc2, h2⟩ := inlineLoopO_eq lines false none 0
  rw [show scanO lines = (fenceLoopO lines ([], 0)).bind (fun fst =>
      (inlineLoopO lines (false, none, 0)).map (fun ist =>
        ((errsOfCounts fst.2 (escapedOf lines) ist.2.2).isEmpty,
          errsOfCounts fst.2 (escapedOf lines) ist.2.2))) from rfl,
    fenceLoopO_eq, h2]
  rfl

/-- Claim C10: an escaped backtick on a non-fence line outside any fence is
still counted in the outside-fence inline count: the one-line document made
of a backslash followed by a backtick fails with exactly the escape issue
(count 1) followed by the inline-imbalance issue (count 1). -/
theorem escaped_still_counted :
    scan [escBqLine] = (false, [escMsg 1, inlineMsg 1]) := by decide
